import Mathlib

/-- A single-quote character, used when rendering diagnostic messages. -/
def quo : String := "\x27"

/-- Name-reference access mode: a name being assigned to (Store) or read (Load). -/
inductive PyCtx where
  | store
  | load

/-- Literal constant values carried by Constant nodes, with their runtime type tag.
Booleans are kept distinct from integers so that the host language's rule that a
boolean is also an integer can be stated explicitly where the code relies on it. -/
inductive ConstVal where
  | intVal (n : Int)
  | boolVal (b : Bool)
  | floatVal (q : Rat)
  | strVal (s : String)
  | noneVal

/-- Binary operators relevant to the analyzer's checks. -/
inductive PyOp where
  | add
  | sub
  | mult
  | divOp
  | floorDiv
  | modOp

/-- A function parameter: its name, whether it carries a type annotation node,
and its source line. -/
structure PyParam where
  arg : String
  annotated : Bool
  lineno : Nat

/-- One imported name with its optional alias (ast.alias). -/
structure ImportAlias where
  origName : String
  asname : Option String

mutual

/-- Expression nodes of the syntax tree (the variants the analyzer inspects). -/
inductive PyExpr where
  | name (id : String) (ctx : PyCtx) (lineno : Nat)
  | const (value : ConstVal) (lineno : Nat)
  | binOp (left : PyExpr) (op : PyOp) (right : PyExpr) (lineno : Nat)
  | call (func : PyExpr) (args : List PyExpr) (lineno : Nat)
  | listLit (elts : List PyExpr) (lineno : Nat)
  | attr (value : PyExpr) (attrName : String) (ctx : PyCtx) (lineno : Nat)

/-- Statement nodes of the syntax tree. -/
inductive PyStmt where
  | functionDef (fname : String) (args : List PyParam) (body : List PyStmt)
      (hasReturnAnn : Bool) (lineno : Nat)
  | assign (targets : List PyExpr) (value : PyExpr) (lineno : Nat)
  | augAssign (target : PyExpr) (op : PyOp) (value : PyExpr) (lineno : Nat)
  | forLoop (target : PyExpr) (iterExpr : PyExpr) (body : List PyStmt)
      (orelse : List PyStmt) (lineno : Nat)
  | ifStmt (test : PyExpr) (body : List PyStmt) (orelse : List PyStmt) (lineno : Nat)
  | ret (value : Option PyExpr) (lineno : Nat)
  | importPlain (names : List ImportAlias) (lineno : Nat)
  | importFrom (moduleName : String) (names : List ImportAlias) (lineno : Nat)
  | exprStmt (value : PyExpr) (lineno : Nat)
  | passStmt (lineno : Nat)

end

/-- A node of the walked tree: the Module root, a statement, or an expression. -/
inductive PyNode where
  | module (body : List PyStmt)
  | stmt (s : PyStmt)
  | expr (e : PyExpr)

/-- The child nodes of a node, in field order (ast.iter_child_nodes). -/
def children : PyNode → List PyNode
  | .module body => body.map .stmt
  | .stmt s =>
    match s with
    | .functionDef _ _ body _ _ => body.map .stmt
    | .assign targets value _ => targets.map .expr ++ [.expr value]
    | .augAssign target _ value _ => [.expr target, .expr value]
    | .forLoop target iterExpr body orelse _ =>
        [.expr target, .expr iterExpr] ++ body.map .stmt ++ orelse.map .stmt
    | .ifStmt test body orelse _ => [.expr test] ++ body.map .stmt ++ orelse.map .stmt
    | .ret value _ => match value with | some v => [.expr v] | none => []
    | .importPlain _ _ => []
    | .importFrom _ _ _ => []
    | .exprStmt value _ => [.expr value]
    | .passStmt _ => []
  | .expr e =>
    match e with
    | .name _ _ _ => []
    | .const _ _ => []
    | .binOp left _ right _ => [.expr left, .expr right]
    | .call func args _ => .expr func :: args.map .expr
    | .listLit elts _ => elts.map .expr
    | .attr value _ _ _ => [.expr value]

mutual

/-- Number of tree nodes in an expression subtree (the expression itself and
all of its descendants). -/
def sizeE : PyExpr → Nat
  | .name _ _ _ => 1
  | .const _ _ => 1
  | .binOp l _ r _ => 1 + sizeE l + sizeE r
  | .call f args _ => 1 + sizeE f + sizeEL args
  | .listLit elts _ => 1 + sizeEL elts
  | .attr v _ _ _ => 1 + sizeE v

/-- Total node count of a list of expressions. -/
def sizeEL : List PyExpr → Nat
  | [] => 0
  | e :: es => sizeE e + sizeEL es

/-- Number of tree nodes in a statement subtree. -/
def sizeS : PyStmt → Nat
  | .functionDef _ _ body _ _ => 1 + sizeSL body
  | .assign targets value _ => 1 + sizeEL targets + sizeE value
  | .augAssign t _ v _ => 1 + sizeE t + sizeE v
  | .forLoop t i body orelse _ => 1 + sizeE t + sizeE i + sizeSL body + sizeSL orelse
  | .ifStmt test body orelse _ => 1 + sizeE test + sizeSL body + sizeSL orelse
  | .ret (some v) _ => 1 + sizeE v
  | .ret none _ => 1
  | .importPlain _ _ => 1
  | .importFrom _ _ _ => 1
  | .exprStmt v _ => 1 + sizeE v
  | .passStmt _ => 1

/-- Total node count of a list of statements. -/
def sizeSL : List PyStmt → Nat
  | [] => 0
  | s :: ss => sizeS s + sizeSL ss

end

/-- Node count of a walked node. -/
def sizeN : PyNode → Nat
  | .module body => 1 + sizeSL body
  | .stmt s => sizeS s
  | .expr e => sizeE e

/-- Breadth-first traversal of the tree (ast.walk): pop the front of the queue,
yield it, push its children at the back.  The fuel argument dominates the number
of reachable nodes so the traversal never cuts off when started via walkNode. -/
def walkFuel : Nat → List PyNode → List PyNode
  | _, [] => []
  | 0, _ => []
  | fuel + 1, n :: rest => n :: walkFuel fuel (rest ++ children n)

/-- ast.walk from a single root node. -/
def walkNode (n : PyNode) : List PyNode :=
  walkFuel (sizeN n) [n]

/-- ast.walk from the Module root of a parsed tree. -/
def walkModule (t : List PyStmt) : List PyNode :=
  walkNode (.module t)

example : walkModule [.passStmt 1, .exprStmt (.name "x" .load 2) 2] =
    [.module [.passStmt 1, .exprStmt (.name "x" .load 2) 2],
     .stmt (.passStmt 1), .stmt (.exprStmt (.name "x" .load 2) 2),
     .expr (.name "x" .load 2)] := rfl

/-- The built-in identifier set: the host language's built-in callables and
types together with the boolean/null literals spelled as identifiers
(set(builtins.__dict__) | set([True, False, None]), restricted to the names an
analyzed fragment can plausibly mention). -/
def pyBuiltins : List String :=
  ["abs", "all", "any", "ascii", "bin", "bool", "bytearray", "bytes",
   "callable", "chr", "classmethod", "compile", "complex", "delattr", "dict",
   "dir", "divmod", "enumerate", "filter", "float", "format", "frozenset",
   "getattr", "globals", "hasattr", "hash", "help", "hex", "id", "input",
   "int", "isinstance", "issubclass", "iter", "len", "list", "locals", "map",
   "max", "memoryview", "min", "next", "object", "oct", "open", "ord", "pow",
   "print", "property", "range", "repr", "reversed", "round", "set",
   "setattr", "slice", "sorted", "staticmethod", "str", "sum", "super",
   "tuple", "type", "vars", "zip", "Exception", "ValueError", "TypeError",
   "KeyError", "IndexError", "ZeroDivisionError", "NameError",
   "AttributeError", "RuntimeError", "StopIteration", "True", "False", "None"]

/-- Characters of a dotted path before the first dot. -/
def upToDot : List Char → List Char
  | [] => []
  | c :: cs => if c = '.' then [] else c :: upToDot cs

/-- name.split(".")[0]: the first segment of a dotted module path (the whole
string when it has no dot). -/
def firstSegment (s : String) : String :=
  String.mk (upToDot s.data)

example : firstSegment "os.path" = "os" := rfl
example : firstSegment "math" = "math" := rfl

/-- "Undefined variable '<id>' used at line <n>. Fix: Define '<id>' before use." -/
def undefMsg (id : String) (line : Nat) : String :=
  "Undefined variable " ++ quo ++ id ++ quo ++ " used at line " ++ toString line ++
    ". Fix: Define " ++ quo ++ id ++ quo ++ " before use."

/-- "Unused variable '<name>' defined at line <n>." -/
def unusedMsg (nm : String) (line : Nat) : String :=
  "Unused variable " ++ quo ++ nm ++ quo ++ " defined at line " ++ toString line ++ "."

/-- "Division by zero at line <n>. Fix: Avoid dividing by zero." -/
def divErrMsg (line : Nat) : String :=
  "Division by zero at line " ++ toString line ++ ". Fix: Avoid dividing by zero."

/-- "Line <n>: Add check to ensure '<id>' is not zero before division." -/
def divSuggMsg (line : Nat) (id : String) : String :=
  "Line " ++ toString line ++ ": Add check to ensure " ++ quo ++ id ++ quo ++
    " is not zero before division."

/-- "Line <n>: Replace loop with sum(range(...)) for efficiency." -/
def sumLoopMsg (line : Nat) : String :=
  "Line " ++ toString line ++ ": Replace loop with sum(range(...)) for efficiency."

/-- "Line <n>: Consider using a list comprehension for efficiency if applicable." -/
def comprMsg (line : Nat) : String :=
  "Line " ++ toString line ++
    ": Consider using a list comprehension for efficiency if applicable."

/-- "Redundant assignment '<t> = <t>' at line <n>. Fix: Remove this line." -/
def selfAssignMsg (t : String) (line : Nat) : String :=
  "Redundant assignment " ++ quo ++ t ++ " = " ++ t ++ quo ++ " at line " ++
    toString line ++ ". Fix: Remove this line."

/-- "Redundant operation '<t> = <t> + 0' at line <n>. Fix: Remove this line."
The message interpolates the assignment target twice; it does not consult the
actual left operand of the addition. -/
def addZeroMsg (t : String) (line : Nat) : String :=
  "Redundant operation " ++ quo ++ t ++ " = " ++ t ++ " + 0" ++ quo ++ " at line " ++
    toString line ++ ". Fix: Remove this line."

/-- "Line <n>: Add type hint for return value of '<f>' (e.g., -> <ty>)." -/
def retHintMsg (line : Nat) (fname : String) (ty : String) : String :=
  "Line " ++ toString line ++ ": Add type hint for return value of " ++ quo ++
    fname ++ quo ++ " (e.g., -> " ++ ty ++ ")."

/-- "Line <n>: Add type hint for parameter '<a>' in '<f>' (e.g., <a>: <ty>)." -/
def paramHintMsg (line : Nat) (a : String) (fname : String) (ty : String) : String :=
  "Line " ++ toString line ++ ": Add type hint for parameter " ++ quo ++ a ++ quo ++
    " in " ++ quo ++ fname ++ quo ++ " (e.g., " ++ a ++ ": " ++ ty ++ ")."

/-- "SyntaxError: <msg> at line <n>" (parse_code's handler for syntax,
indentation and tab errors). -/
def syntaxErrMsg (msg : String) (line : Nat) : String :=
  "SyntaxError: " ++ msg ++ " at line " ++ toString line

/-- "Unexpected error during parsing: <msg>" (parse_code's fallback handler). -/
def otherErrMsg (msg : String) : String :=
  "Unexpected error during parsing: " ++ msg

/-- Append an optional message to an accumulator list (one conditional
self.errors.append(...) step of a pass's loop body). -/
def appendOpt (acc : List String) (o : Option String) : List String :=
  match o with
  | some m => acc ++ [m]
  | none => acc

/-- The names an import statement binds, as recorded by the undefined-variable
pass: a plain import records the alias if present, otherwise the first segment
of the dotted path; a from-import records the alias if present, otherwise the
member name itself. -/
def importedOf : PyNode → List String
  | .stmt (.importPlain names _) =>
      names.map (fun a => a.asname.getD (firstSegment a.origName))
  | .stmt (.importFrom _ names _) =>
      names.map (fun a => a.asname.getD a.origName)
  | _ => []

/-- The names one node adds to defined_names in the undefined-variable pass:
Store-mode name references, function definition names, and parameter names. -/
def definedOf : PyNode → List String
  | .expr (.name id .store _) => [id]
  | .stmt (.functionDef fname args _ _ _) => fname :: args.map (·.arg)
  | _ => []

/-- defined_names of the undefined-variable pass, collected over the whole walk. -/
def definedNames (t : List PyStmt) : List String :=
  (walkModule t).foldl (fun acc n => acc ++ definedOf n) []

/-- imported_names of the undefined-variable pass, collected over the whole walk. -/
def importedNames (t : List PyStmt) : List String :=
  (walkModule t).foldl (fun acc n => acc ++ importedOf n) []

/-- The optional finding of the undefined-variable pass's reporting loop at one
node: a Load-mode name absent from defined names, built-ins and imported names. -/
def undefSel (defined imported : List String) : PyNode → Option String
  | .expr (.name id .load line) =>
      if !defined.contains id && !pyBuiltins.contains id && !imported.contains id then
        some (undefMsg id line)
      else none
  | _ => none

/-- check_undefined_variables: collect defined and imported names over the whole
tree, then report every Load-mode reference to a name that is in none of the
defined, built-in, or imported sets. -/
def check_undefined_variables (t : List PyStmt) : List String :=
  let defined := definedNames t
  let imported := importedNames t
  (walkModule t).foldl (fun errs n => appendOpt errs (undefSel defined imported n)) []

/-- defined_names[k] = v on an insertion-ordered dictionary: updating an
existing key keeps its position, a new key goes to the back. -/
def dictInsert (d : List (String × Nat)) (k : String) (v : Nat) : List (String × Nat) :=
  if d.any (fun p => p.1 == k) then
    d.map (fun p => if p.1 == k then (k, v) else p)
  else d ++ [(k, v)]

/-- Accumulated state of the unused-variable pass's collection loop:
defined_names (name to line, last write wins), used_names, function_names. -/
structure UnusedAcc where
  definedD : List (String × Nat)
  used : List String
  funcs : List String

/-- One step of the unused-variable pass's collection loop: function definitions
record their name as a function name and their parameters as defined names;
Store-mode references record defined names; Load-mode references record uses. -/
def unusedStep (acc : UnusedAcc) : PyNode → UnusedAcc
  | .stmt (.functionDef fname args _ _ _) =>
      { acc with
        funcs := acc.funcs ++ [fname],
        definedD := args.foldl (fun d p => dictInsert d p.arg p.lineno) acc.definedD }
  | .expr (.name id .store line) => { acc with definedD := dictInsert acc.definedD id line }
  | .expr (.name id .load _) => { acc with used := acc.used ++ [id] }
  | _ => acc

/-- The collected state of the unused-variable pass over the whole walk. -/
def unusedCollect (t : List PyStmt) : UnusedAcc :=
  (walkModule t).foldl unusedStep ⟨[], [], []⟩

/-- The (name, line) entries the unused-variable pass reports: defined names
that are neither used nor function names, in dictionary order. -/
def unusedFindings (t : List PyStmt) : List (String × Nat) :=
  let acc := unusedCollect t
  acc.definedD.filter (fun p => !acc.used.contains p.1 && !acc.funcs.contains p.1)

/-- check_unused_variables: collect defined/used/function names over the whole
tree, then report each defined name that is never loaded and is not a function
name, once per dictionary entry. -/
def check_unused_variables (t : List PyStmt) : List String :=
  let acc := unusedCollect t
  acc.definedD.foldl
    (fun errs p =>
      if !acc.used.contains p.1 && !acc.funcs.contains p.1 then
        errs ++ [unusedMsg p.1 p.2]
      else errs)
    []

/-- Whether the operator is division, floor division, or modulo. -/
def isDivOp : PyOp → Bool
  | .divOp => true
  | .floorDiv => true
  | .modOp => true
  | _ => false

/-- Python equality of a literal constant with the integer 0: the integer 0,
the boolean False (a boolean is an integer), and the float 0.0 all compare
equal to 0; strings and None do not. -/
def constEqZero : ConstVal → Bool
  | .intVal n => n == 0
  | .boolVal b => !b
  | .floatVal q => q == 0
  | .strVal _ => false
  | .noneVal => false

/-- The optional hard error of the division pass at one node: a division-class
binary operation whose right operand is a literal equal to zero. -/
def divErrSel : PyNode → Option String
  | .expr (.binOp _ op right line) =>
      if isDivOp op then
        match right with
        | .const c _ => if constEqZero c then some (divErrMsg line) else none
        | _ => none
      else none
  | _ => none

/-- The optional suggestion of the division pass at one node: a division-class
binary operation whose right operand is a plain name reference. -/
def divSuggSel : PyNode → Option String
  | .expr (.binOp _ op right line) =>
      if isDivOp op then
        match right with
        | .name id _ _ => some (divSuggMsg line id)
        | _ => none
      else none
  | _ => none

/-- One step of check_division_by_zero's loop: on a division-class binary
operation, a literal-zero right operand appends a hard error, else a name
right operand appends a suggestion. -/
def divStep (acc : List String × List String) (n : PyNode) : List String × List String :=
  match n with
  | .expr (.binOp _ op right line) =>
      if isDivOp op then
        match right with
        | .const c _ =>
            if constEqZero c then (acc.1 ++ [divErrMsg line], acc.2) else acc
        | .name id _ _ => (acc.1, acc.2 ++ [divSuggMsg line id])
        | _ => acc
      else acc
  | _ => acc

/-- check_division_by_zero: walk the tree once, producing (errors, suggestions). -/
def check_division_by_zero (t : List PyStmt) : List String × List String :=
  (walkModule t).foldl divStep ([], [])

/-- Whether the loop iterable is a call whose callee is the bare name range. -/
def isRangeCall : PyExpr → Bool
  | .call (.name id _ _) _ _ => id == "range"
  | _ => false

/-- Whether every direct statement of the loop body is an augmented assignment
whose operator is addition (the pure-summation idiom). -/
def isSimpleSum (body : List PyStmt) : Bool :=
  body.all fun s =>
    match s with
    | .augAssign _ .add _ _ => true
    | _ => false

/-- Whether any node of the given walk is a call whose callee is the bare name
append. -/
def anyAppendCall (nodes : List PyNode) : Bool :=
  nodes.any fun n =>
    match n with
    | .expr (.call (.name id _ _) _ _) => id == "append"
    | _ => false

/-- The optional optimization of the loop pass at one for-loop node: a
range-call iterable with a pure-summation body suggests sum(range(...)); only
when the iterable is not a range call, an append call anywhere below the loop
suggests a comprehension. -/
def loopSel : PyNode → Option String
  | .stmt (.forLoop target iterExpr body orelse line) =>
      if isRangeCall iterExpr then
        if isSimpleSum body then some (sumLoopMsg line) else none
      else
        if anyAppendCall (walkNode (.stmt (.forLoop target iterExpr body orelse line))) then
          some (comprMsg line)
        else none
  | _ => none

/-- check_inefficient_loops: walk the tree, handling each for-loop with the
if/elif policy of loopSel. -/
def check_inefficient_loops (t : List PyStmt) : List String :=
  (walkModule t).foldl (fun opts n => appendOpt opts (loopSel n)) []

/-- The optional error of the redundancy pass at one node: a single-target
assignment to a plain name whose value is either the same name, or a binary
addition (with any left operand) whose right operand is a literal equal to
zero. -/
def redundantSel : PyNode → Option String
  | .stmt (.assign [.name target _ _] value line) =>
      match value with
      | .name vid _ _ => if vid == target then some (selfAssignMsg target line) else none
      | .binOp _ .add (.const c _) _ =>
          if constEqZero c then some (addZeroMsg target line) else none
      | _ => none
  | _ => none

/-- check_redundant_code: walk the tree, reporting redundantSel findings. -/
def check_redundant_code (t : List PyStmt) : List String :=
  (walkModule t).foldl (fun errs n => appendOpt errs (redundantSel n)) []

/-- The type label of the value of the first Return statement the type-hint
pass stops at: integer and boolean literals label int (a boolean is an
integer), float literals float, string literals str, list displays list, and
every other value form leaves the fallback Any. -/
def retLabel : PyExpr → String
  | .const c _ =>
      match c with
      | .intVal _ => "int"
      | .boolVal _ => "int"
      | .floatVal _ => "float"
      | .strVal _ => "str"
      | .noneVal => "Any"
  | .listLit _ _ => "list"
  | _ => "Any"

/-- The inferred return type of a function: scan the walk of the function node
and stop at the first Return statement that has a value, whatever that value
is; label it with retLabel.  Valueless returns do not stop the scan; absence
of any valued return yields Any. -/
def inferReturnType : List PyNode → String
  | [] => "Any"
  | .stmt (.ret (some v) _) :: _ => retLabel v
  | _ :: rest => inferReturnType rest

/-- The value of the first Return-with-value node in a walk, if any. -/
def firstValuedRet (nodes : List PyNode) : Option PyExpr :=
  nodes.findSome? fun n =>
    match n with
    | .stmt (.ret (some v) _) => some v
    | _ => none

/-- Whether the expression is a plain name reference to the given identifier. -/
def isNameOf (e : PyExpr) (a : String) : Bool :=
  match e with
  | .name id _ _ => id == a
  | _ => false

/-- Whether the function's walk contains a binary add/subtract/multiply
operation with the given parameter as a direct left or right operand. -/
def paramArith (nodes : List PyNode) (a : String) : Bool :=
  nodes.any fun n =>
    match n with
    | .expr (.binOp l op r _) =>
        (match op with
         | .add => true
         | .sub => true
         | .mult => true
         | _ => false) && (isNameOf l a || isNameOf r a)
    | _ => false

/-- The inferred label of one parameter: int when it appears as a direct
operand of an add/subtract/multiply, else Any. -/
def paramLabel (nodes : List PyNode) (a : String) : String :=
  if paramArith nodes a then "int" else "Any"

/-- The suggestions one function definition contributes: a return-type hint
when the function has no declared return annotation, then one parameter hint
per unannotated parameter, at the parameter's own line. -/
def hintsOfFn (fname : String) (args : List PyParam) (body : List PyStmt)
    (hasReturnAnn : Bool) (line : Nat) : List String :=
  let w := walkNode (.stmt (.functionDef fname args body hasReturnAnn line))
  let retPart :=
    if !hasReturnAnn then [retHintMsg line fname (inferReturnType w)] else []
  retPart ++ (args.filter (fun p => !p.annotated)).map
    (fun p => paramHintMsg p.lineno p.arg fname (paramLabel w p.arg))

/-- The suggestions one walked node contributes to the type-hint pass. -/
def hintSel : PyNode → List String
  | .stmt (.functionDef fname args body hasReturnAnn line) =>
      hintsOfFn fname args body hasReturnAnn line
  | _ => []

/-- suggest_type_hints: walk the tree; every function definition contributes
its return-type and parameter-type suggestions. -/
def suggest_type_hints (t : List PyStmt) : List String :=
  (walkModule t).foldl (fun suggs n => suggs ++ hintSel n) []

/-- The outcome of ast.parse on the input text: a tree, or a syntax-class
failure carrying the offending line, or any other construction fault. -/
inductive ParseOutcome where
  | success (tree : List PyStmt)
  | syntaxFail (msg : String) (lineno : Nat)
  | otherFail (msg : String)

/-- The CodeDebugger instance state: the optional parsed tree and the three
accumulated finding lists. -/
structure CodeDebugger where
  tree : Option (List PyStmt)
  errors : List String
  optimizations : List String
  suggestions : List String

/-- A freshly constructed CodeDebugger (the constructor of the class): no tree
yet, all three finding lists empty. -/
def newDebugger : CodeDebugger :=
  ⟨none, [], [], []⟩

/-- parse_code: on success store the tree and return True; on a syntax-class
failure append the SyntaxError message and return False; on any other fault
append the generic parse-failure message and return False. -/
def parse_code (p : ParseOutcome) (d : CodeDebugger) : CodeDebugger × Bool :=
  match p with
  | .success t => ({ d with tree := some t }, true)
  | .syntaxFail m l => ({ d with errors := d.errors ++ [syntaxErrMsg m l] }, false)
  | .otherFail m => ({ d with errors := d.errors ++ [otherErrMsg m] }, false)

/-- Run one pass against the instance state; each pass returns immediately when
no tree was stored. -/
def runUndefined (d : CodeDebugger) : CodeDebugger :=
  match d.tree with
  | none => d
  | some t => { d with errors := d.errors ++ check_undefined_variables t }

/-- The unused-variable pass as a state step. -/
def runUnused (d : CodeDebugger) : CodeDebugger :=
  match d.tree with
  | none => d
  | some t => { d with errors := d.errors ++ check_unused_variables t }

/-- The division pass as a state step: errors and suggestions accumulate. -/
def runDivision (d : CodeDebugger) : CodeDebugger :=
  match d.tree with
  | none => d
  | some t =>
      let r := check_division_by_zero t
      { d with errors := d.errors ++ r.1, suggestions := d.suggestions ++ r.2 }

/-- The loop pass as a state step: optimizations accumulate. -/
def runLoops (d : CodeDebugger) : CodeDebugger :=
  match d.tree with
  | none => d
  | some t => { d with optimizations := d.optimizations ++ check_inefficient_loops t }

/-- The redundancy pass as a state step. -/
def runRedundant (d : CodeDebugger) : CodeDebugger :=
  match d.tree with
  | none => d
  | some t => { d with errors := d.errors ++ check_redundant_code t }

/-- The type-hint pass as a state step: suggestions accumulate. -/
def runTypeHints (d : CodeDebugger) : CodeDebugger :=
  match d.tree with
  | none => d
  | some t => { d with suggestions := d.suggestions ++ suggest_type_hints t }

/-- The structured result analyze returns: three named ordered sequences. -/
structure AnalysisResult where
  errors : List String
  optimizations : List String
  suggestions : List String
deriving DecidableEq

/-- analyze: parse first; on failure return the accumulated errors with
literally empty optimization and suggestion lists; on success run the six
passes in their fixed order and return the three accumulated lists. -/
def analyze (p : ParseOutcome) (d : CodeDebugger) : CodeDebugger × AnalysisResult :=
  let pr := parse_code p d
  if pr.2 then
    let d6 := runTypeHints (runRedundant (runLoops (runDivision (runUnused (runUndefined pr.1)))))
    (d6, ⟨d6.errors, d6.optimizations, d6.suggestions⟩)
  else (pr.1, ⟨pr.1.errors, [], []⟩)

/-- CodeDebugger(text).analyze(): one full run on a freshly constructed
instance, as the demo driver performs for each sample. -/
def analyzeFresh (p : ParseOutcome) : AnalysisResult :=
  (analyze p newDebugger).2

/-- A loop that conditionally appends one message per node is the filterMap of
its per-node selector. -/
theorem foldl_appendOpt (f : PyNode → Option String) (l : List PyNode) :
    ∀ acc : List String,
      l.foldl (fun a n => appendOpt a (f n)) acc = acc ++ l.filterMap f := by
  induction l with
  | nil => intro acc; simp
  | cons n rest ih =>
    intro acc
    rw [List.foldl_cons, ih]
    cases h : f n with
    | none => simp [appendOpt, h, List.filterMap_cons]
    | some m => simp [appendOpt, h, List.filterMap_cons]

/-- A loop that appends a per-node list of names is the flatMap of that list. -/
theorem foldl_appendList {α β : Type} (g : α → List β) (l : List α) :
    ∀ acc : List β, l.foldl (fun a n => a ++ g n) acc = acc ++ l.flatMap g := by
  induction l with
  | nil => intro acc; simp
  | cons n rest ih =>
    intro acc
    rw [List.foldl_cons, ih]
    simp

/-- A loop over dictionary entries that conditionally appends one formatted
record per entry is the map of the filtered dictionary. -/
theorem foldl_ifAppend (q : String × Nat → Bool) (g : String × Nat → String)
    (d : List (String × Nat)) :
    ∀ acc : List String,
      d.foldl (fun errs p => if q p then errs ++ [g p] else errs) acc =
        acc ++ (d.filter q).map g := by
  induction d with
  | nil => intro acc; simp
  | cons p rest ih =>
    intro acc
    rw [List.foldl_cons, ih]
    cases h : q p with
    | false => simp [h, List.filter_cons]
    | true => simp [h, List.filter_cons]

/-- The undefined-variable pass is the filterMap of its selector over the walk,
with the collected defined and imported name sets. -/
theorem check_undefined_eq (t : List PyStmt) :
    check_undefined_variables t =
      (walkModule t).filterMap (undefSel (definedNames t) (importedNames t)) := by
  unfold check_undefined_variables
  exact foldl_appendOpt _ _ []

/-- definedNames is the flatMap of the per-node defined-name contributions. -/
theorem definedNames_eq (t : List PyStmt) :
    definedNames t = (walkModule t).flatMap definedOf := by
  unfold definedNames
  exact foldl_appendList _ _ []

/-- importedNames is the flatMap of the per-node imported-name contributions. -/
theorem importedNames_eq (t : List PyStmt) :
    importedNames t = (walkModule t).flatMap importedOf := by
  unfold importedNames
  exact foldl_appendList _ _ []

/-- The redundancy pass is the filterMap of its selector over the walk. -/
theorem check_redundant_eq (t : List PyStmt) :
    check_redundant_code t = (walkModule t).filterMap redundantSel := by
  unfold check_redundant_code
  exact foldl_appendOpt _ _ []

/-- The loop pass is the filterMap of its selector over the walk. -/
theorem check_loops_eq (t : List PyStmt) :
    check_inefficient_loops t = (walkModule t).filterMap loopSel := by
  unfold check_inefficient_loops
  exact foldl_appendOpt _ _ []

/-- One division-pass step appends the optional error to the first component
and the optional suggestion to the second. -/
theorem divStep_eq (acc : List String × List String) (n : PyNode) :
    divStep acc n = (acc.1 ++ (divErrSel n).toList, acc.2 ++ (divSuggSel n).toList) := by
  cases n with
  | module body => simp [divStep, divErrSel, divSuggSel]
  | stmt s => simp [divStep, divErrSel, divSuggSel]
  | expr e =>
    cases e with
    | binOp l op r line =>
      cases hop : isDivOp op with
      | false => simp [divStep, divErrSel, divSuggSel, hop]
      | true =>
        cases r with
        | const c lc =>
          cases hc : constEqZero c with
          | false => simp [divStep, divErrSel, divSuggSel, hop, hc]
          | true => simp [divStep, divErrSel, divSuggSel, hop, hc]
        | name id ctx lr => simp [divStep, divErrSel, divSuggSel, hop]
        | binOp a b c d => simp [divStep, divErrSel, divSuggSel, hop]
        | call a b c => simp [divStep, divErrSel, divSuggSel, hop]
        | listLit a b => simp [divStep, divErrSel, divSuggSel, hop]
        | attr a b c d => simp [divStep, divErrSel, divSuggSel, hop]
    | name a b c => simp [divStep, divErrSel, divSuggSel]
    | const a b => simp [divStep, divErrSel, divSuggSel]
    | call a b c => simp [divStep, divErrSel, divSuggSel]
    | listLit a b => simp [divStep, divErrSel, divSuggSel]
    | attr a b c d => simp [divStep, divErrSel, divSuggSel]

/-- The division pass produces exactly the filterMaps of its two selectors. -/
theorem check_division_eq (t : List PyStmt) :
    check_division_by_zero t =
      ((walkModule t).filterMap divErrSel, (walkModule t).filterMap divSuggSel) := by
  unfold check_division_by_zero
  have main : ∀ (l : List PyNode) (acc : List String × List String),
      l.foldl divStep acc = (acc.1 ++ l.filterMap divErrSel, acc.2 ++ l.filterMap divSuggSel) := by
    intro l
    induction l with
    | nil => intro acc; simp
    | cons n rest ih =>
      intro acc
      rw [List.foldl_cons, divStep_eq, ih]
      cases he : divErrSel n <;> cases hs : divSuggSel n <;>
        simp [Option.toList, List.filterMap_cons, he, hs]
  simpa using main (walkModule t) ([], [])

/-- The unused-variable pass renders exactly its findings, in order. -/
theorem check_unused_eq (t : List PyStmt) :
    check_unused_variables t = (unusedFindings t).map (fun p => unusedMsg p.1 p.2) := by
  unfold check_unused_variables unusedFindings
  exact foldl_ifAppend _ _ _ []

/-- Dictionary insertion keeps the keys duplicate-free. -/
theorem dictInsert_keys_nodup (d : List (String × Nat)) (k : String) (v : Nat)
    (h : (d.map Prod.fst).Nodup) : ((dictInsert d k v).map Prod.fst).Nodup := by
  unfold dictInsert
  cases ha : d.any (fun p => p.1 == k) with
  | true =>
    have hkeys : (d.map (fun p => if p.1 == k then (k, v) else p)).map Prod.fst
        = d.map Prod.fst := by
      rw [List.map_map]
      apply List.map_congr_left
      intro p _
      by_cases hpk : (p.1 == k) = true
      · simp only [Function.comp_apply]
        rw [if_pos hpk]
        exact (eq_of_beq hpk).symm
      · simp only [Function.comp_apply]
        rw [if_neg hpk]
    rw [if_pos rfl, hkeys]
    exact h
  | false =>
    have hk : k ∉ d.map Prod.fst := by
      intro hmem
      obtain ⟨p, hp, hpk⟩ := List.mem_map.1 hmem
      have htrue : d.any (fun p => p.1 == k) = true :=
        List.any_eq_true.2 ⟨p, hp, by simp [hpk]⟩
      rw [ha] at htrue
      cases htrue
    rw [if_neg (by simp [ha]), List.map_append]
    simp [List.nodup_append, h, hk]

/-- Folding parameter insertions keeps the keys duplicate-free. -/
theorem paramFold_keys_nodup (ps : List PyParam) :
    ∀ d : List (String × Nat), (d.map Prod.fst).Nodup →
      ((ps.foldl (fun d p => dictInsert d p.arg p.lineno) d).map Prod.fst).Nodup := by
  induction ps with
  | nil => intro d h; simpa
  | cons p rest ih => intro d h; exact ih _ (dictInsert_keys_nodup _ _ _ h)

/-- One collection step of the unused-variable pass keeps the defined-name
dictionary keys duplicate-free. -/
theorem unusedStep_nodup (acc : UnusedAcc) (n : PyNode)
    (h : (acc.definedD.map Prod.fst).Nodup) :
    (((unusedStep acc n).definedD).map Prod.fst).Nodup := by
  cases n with
  | module body => simpa [unusedStep]
  | stmt s =>
    cases s with
    | functionDef fname args body hra line =>
        simpa [unusedStep] using paramFold_keys_nodup args acc.definedD h
    | assign a b c => simpa [unusedStep]
    | augAssign a b c d => simpa [unusedStep]
    | forLoop a b c d e => simpa [unusedStep]
    | ifStmt a b c d => simpa [unusedStep]
    | ret a b => simpa [unusedStep]
    | importPlain a b => simpa [unusedStep]
    | importFrom a b c => simpa [unusedStep]
    | exprStmt a b => simpa [unusedStep]
    | passStmt a => simpa [unusedStep]
  | expr e =>
    cases e with
    | name id ctx line =>
      cases ctx with
      | store => simpa [unusedStep] using dictInsert_keys_nodup acc.definedD id line h
      | load => simpa [unusedStep]
    | const a b => simpa [unusedStep]
    | binOp a b c d => simpa [unusedStep]
    | call a b c => simpa [unusedStep]
    | listLit a b => simpa [unusedStep]
    | attr a b c d => simpa [unusedStep]

/-- The collected defined-name dictionary has duplicate-free keys. -/
theorem unusedCollect_nodup (t : List PyStmt) :
    ((unusedCollect t).definedD.map Prod.fst).Nodup := by
  unfold unusedCollect
  have main : ∀ (l : List PyNode) (acc : UnusedAcc), (acc.definedD.map Prod.fst).Nodup →
      (((l.foldl unusedStep acc).definedD).map Prod.fst).Nodup := by
    intro l
    induction l with
    | nil => intro acc h; simpa
    | cons n rest ih => intro acc h; exact ih _ (unusedStep_nodup acc n h)
  exact main _ ⟨[], [], []⟩ (by simp)

/-- A duplicate-free association list that holds a key holds it exactly once. -/
theorem countP_eq_one_of_nodup_any (s : String) :
    ∀ d : List (String × Nat), (d.map Prod.fst).Nodup →
      d.any (fun p => p.1 == s) = true → d.countP (fun p => p.1 == s) = 1 := by
  intro d
  induction d with
  | nil => intro _ ha; simp at ha
  | cons p rest ih =>
    intro hnd ha
    have hnd' : (rest.map Prod.fst).Nodup := (List.nodup_cons.1 (by simpa using hnd)).2
    rw [List.countP_cons]
    cases hp : (p.1 == s) with
    | true =>
      have hps : p.1 = s := eq_of_beq hp
      have hnotin : s ∉ rest.map Prod.fst :=
        hps ▸ (List.nodup_cons.1 (by simpa using hnd)).1
      have hzero : rest.countP (fun p => p.1 == s) = 0 := by
        apply List.countP_eq_zero.2
        intro q hq hqs
        exact hnotin (List.mem_map.2 ⟨q, hq, eq_of_beq hqs⟩)
      simp [hzero, hp]
    | false =>
      have ha' : rest.any (fun p => p.1 == s) = true := by
        rcases List.any_eq_true.1 ha with ⟨q, hq, hqs⟩
        rcases List.mem_cons.1 hq with h1 | h2
        · rw [h1] at hqs; rw [hqs] at hp; cases hp
        · exact List.any_eq_true.2 ⟨q, h2, hqs⟩
      simp [hp, ih hnd' ha']

/-- Filtering by a key-only predicate that accepts the key preserves the count
of that key's entries. -/
theorem countP_filter_key_pos (qk : String → Bool) (s : String) (hqs : qk s = true) :
    ∀ d : List (String × Nat),
      (d.filter (fun p => qk p.1)).countP (fun p => p.1 == s) =
        d.countP (fun p => p.1 == s) := by
  intro d
  induction d with
  | nil => simp
  | cons p rest ih =>
    rw [List.filter_cons]
    cases hq : qk p.1 with
    | true => simp [List.countP_cons, ih]
    | false =>
      have hps : (p.1 == s) = false := by
        cases hps : (p.1 == s) with
        | false => rfl
        | true =>
          rw [eq_of_beq hps, hqs] at hq
          cases hq
      simp [List.countP_cons, ih, hps]

/-- Filtering by a key-only predicate that rejects the key removes every entry
of that key. -/
theorem countP_filter_key_neg (qk : String → Bool) (s : String) (hqs : qk s = false)
    (d : List (String × Nat)) :
    (d.filter (fun p => qk p.1)).countP (fun p => p.1 == s) = 0 := by
  apply List.countP_eq_zero.2
  intro q hq hqs'
  have hmem := (List.mem_filter.1 hq).2
  rw [eq_of_beq hqs', hqs] at hmem
  cases hmem

/-- The type-hint scan stops at the first valued Return of the walk and labels
its value; without one it falls back to Any. -/
theorem inferReturnType_eq (nodes : List PyNode) :
    inferReturnType nodes =
      match firstValuedRet nodes with
      | none => "Any"
      | some v => retLabel v := by
  induction nodes with
  | nil => rfl
  | cons n rest ih =>
    cases n with
    | module body => simpa [inferReturnType, firstValuedRet, List.findSome?_cons] using ih
    | stmt s =>
      cases s with
      | ret v line =>
        cases v with
        | some e => simp [inferReturnType, firstValuedRet, List.findSome?_cons]
        | none => simpa [inferReturnType, firstValuedRet, List.findSome?_cons] using ih
      | functionDef a b c d e =>
          simpa [inferReturnType, firstValuedRet, List.findSome?_cons] using ih
      | assign a b c => simpa [inferReturnType, firstValuedRet, List.findSome?_cons] using ih
      | augAssign a b c d => simpa [inferReturnType, firstValuedRet, List.findSome?_cons] using ih
      | forLoop a b c d e => simpa [inferReturnType, firstValuedRet, List.findSome?_cons] using ih
      | ifStmt a b c d => simpa [inferReturnType, firstValuedRet, List.findSome?_cons] using ih
      | importPlain a b => simpa [inferReturnType, firstValuedRet, List.findSome?_cons] using ih
      | importFrom a b c => simpa [inferReturnType, firstValuedRet, List.findSome?_cons] using ih
      | exprStmt a b => simpa [inferReturnType, firstValuedRet, List.findSome?_cons] using ih
      | passStmt a => simpa [inferReturnType, firstValuedRet, List.findSome?_cons] using ih
    | expr e => simpa [inferReturnType, firstValuedRet, List.findSome?_cons] using ih

/-- Whether a walked node is a Load-mode reference to the given name at the
given line. -/
def isLoadOf (s : String) (line : Nat) (n : PyNode) : Bool :=
  match n with
  | .expr (.name id .load l) => id == s && l == line
  | _ => false

/-- Whether a walked node is a Store-mode reference to the given name at the
given line. -/
def isStoreOf (s : String) (line : Nat) (n : PyNode) : Bool :=
  match n with
  | .expr (.name id .store l) => id == s && l == line
  | _ => false

/-- Holds unless the node is a Store of the given name at or before the given
line: used to state that every Store of a name lies on a strictly later line. -/
def storesAfter (s : String) (line : Nat) (n : PyNode) : Bool :=
  match n with
  | .expr (.name id .store l) => !(id == s) || decide (line < l)
  | _ => true

/-- Whether a walked node is a function definition. -/
def isFunctionDefNode : PyNode → Bool
  | .stmt (.functionDef _ _ _ _ _) => true
  | _ => false

/-- Whether a walked node is a plain import statement binding the given dotted
module path without an alias. -/
def hasPlainImportOf (m : String) (n : PyNode) : Bool :=
  match n with
  | .stmt (.importPlain names _) =>
      names.any fun a => a.origName == m && a.asname.isNone
  | _ => false

/-- Whether the optional first valued return is a boolean literal. -/
def isBoolRet : Option PyExpr → Bool
  | some (.const (.boolVal _) _) => true
  | _ => false

/-- A node satisfying isLoadOf is exactly the Load name node it describes. -/
theorem isLoadOf_shape {s : String} {line : Nat} :
    ∀ {n : PyNode}, isLoadOf s line n = true → n = .expr (.name s .load line) := by
  intro n h
  cases n with
  | module body => simp [isLoadOf] at h
  | stmt st => simp [isLoadOf] at h
  | expr e =>
    cases e with
    | name id ctx l =>
      cases ctx with
      | store => simp [isLoadOf] at h
      | load =>
        simp [isLoadOf] at h
        rw [h.1, h.2]
    | const a b => simp [isLoadOf] at h
    | binOp a b c d => simp [isLoadOf] at h
    | call a b c => simp [isLoadOf] at h
    | listLit a b => simp [isLoadOf] at h
    | attr a b c d => simp [isLoadOf] at h

/-- A node satisfying hasPlainImportOf is a plain import holding an unaliased
alias entry for the given path. -/
theorem hasPlainImportOf_shape {m : String} :
    ∀ {n : PyNode}, hasPlainImportOf m n = true →
      ∃ names line, n = .stmt (.importPlain names line) ∧
        ∃ a ∈ names, a.origName = m ∧ a.asname = none := by
  intro n h
  cases n with
  | module body => simp [hasPlainImportOf] at h
  | expr e => simp [hasPlainImportOf] at h
  | stmt st =>
    cases st with
    | importPlain names line =>
      refine ⟨names, line, rfl, ?_⟩
      simpa [hasPlainImportOf] using h
    | functionDef a b c d e => simp [hasPlainImportOf] at h
    | assign a b c => simp [hasPlainImportOf] at h
    | augAssign a b c d => simp [hasPlainImportOf] at h
    | forLoop a b c d e => simp [hasPlainImportOf] at h
    | ifStmt a b c d => simp [hasPlainImportOf] at h
    | ret a b => simp [hasPlainImportOf] at h
    | importFrom a b c => simp [hasPlainImportOf] at h
    | exprStmt a b => simp [hasPlainImportOf] at h
    | passStmt a => simp [hasPlainImportOf] at h

/-- Refuting input for the undefined-variable ordering claim: x is loaded at
line 1 and stored only later, at line 2 (print(x) then x = 1). -/
def exC2 : List PyStmt :=
  [.exprStmt (.call (.name "print" .load 1) [.name "x" .load 1] 1) 1,
   .assign [.name "x" .store 2] (.const (.intVal 1) 2) 2]

/-- Witness input for the amended undefined-variable claim: a bare load of a
never-defined name q at line 3. -/
def exC2w : List PyStmt :=
  [.exprStmt (.name "q" .load 3) 3]

/-- Refuting input for the redundancy claim: x = y + 0 at line 1, whose
addition has a left operand different from the target. -/
def exC3 : List PyStmt :=
  [.assign [.name "x" .store 1]
    (.binOp (.name "y" .load 1) .add (.const (.intVal 0) 1) 1) 1]

/-- The for-loop of the loop-inefficiency counterexample: for i in range(10)
with a conditional append(i) nested in its body. -/
def exC5For : PyStmt :=
  .forLoop (.name "i" .store 1) (.call (.name "range" .load 1) [.const (.intVal 10) 1] 1)
    [.ifStmt (.const (.boolVal true) 2)
      [.exprStmt (.call (.name "append" .load 3) [.name "i" .load 3] 3) 3] [] 2]
    [] 1

/-- Refuting input for the loop-inefficiency claim: a module holding only that
range-loop. -/
def exC5 : List PyStmt :=
  [exC5For]

/-- The function of the type-hint counterexample: its first valued return is a
name reference, a later one is the integer literal 42. -/
def exC6Fn : PyStmt :=
  .functionDef "f" []
    [.ret (some (.name "x" .load 2)) 2, .ret (some (.const (.intVal 42) 3)) 3]
    false 1

/-- Refuting input for the first-qualifying-return claim. -/
def exC6 : List PyStmt :=
  [exC6Fn]

/-- Refuting input for the dotted-import claim: import a.b, then a load of the
last segment b. -/
def exC7 : List PyStmt :=
  [.importPlain [⟨"a.b", none⟩] 1, .exprStmt (.name "b" .load 2) 2]

/-- Witness input for the amended dotted-import claim: import os.path. -/
def exC7w : List PyStmt :=
  [.importPlain [⟨"os.path", none⟩] 1]

/-- Witness input for the unused-variable claim, stored-never-loaded case:
u = 42 with u never read. -/
def exC8a : List PyStmt :=
  [.assign [.name "u" .store 1] (.const (.intVal 42) 1) 1]

/-- Witness input for the unused-variable claim, loaded case: v = 1 then a
bare load of v. -/
def exC8b : List PyStmt :=
  [.assign [.name "v" .store 1] (.const (.intVal 1) 1) 1,
   .exprStmt (.name "v" .load 2) 2]

/-- C1: when tree construction fails, analyze on a fresh instance returns
exactly one structural-error entry and literally empty optimization and
suggestion lists; no check pass contributes anything. -/
theorem C1_parse_failure_short_circuit (m : String) (l : Nat) :
    analyzeFresh (.syntaxFail m l) = ⟨[syntaxErrMsg m l], [], []⟩ ∧
    analyzeFresh (.otherFail m) = ⟨[otherErrMsg m], [], []⟩ ∧
    (analyzeFresh (.syntaxFail m l)).errors.length = 1 ∧
    (analyzeFresh (.otherFail m)).errors.length = 1 :=
  ⟨rfl, rfl, rfl, rfl⟩

/-- C2 refutation: in print(x) followed by x = 1, the name x is loaded at line
1, every store of x is strictly later, x is not a built-in, import, or
function/parameter name, yet the undefined-variable pass reports nothing: the
store on the later line suppresses the report. -/
theorem C2_counterexample :
    (walkModule exC2).any (isLoadOf "x" 1) = true ∧
    (walkModule exC2).all (storesAfter "x" 1) = true ∧
    pyBuiltins.contains "x" = false ∧
    importedNames exC2 = [] ∧
    (walkModule exC2).all (fun n => !isFunctionDefNode n) = true ∧
    check_undefined_variables exC2 = [] :=
  ⟨by decide, by decide, by decide, by decide, by decide, by decide⟩

/-- C2 amended: a name loaded somewhere that appears nowhere in the whole tree
as a Store target, function name, or parameter (the pass's defined set), is
not among the imported names, and is not a recognized built-in, is reported
UndefinedName at that load's line; the position of loads relative to stores
plays no role. -/
theorem C2_amended (t : List PyStmt) (s : String) (line : Nat)
    (h1 : (walkModule t).any (isLoadOf s line) = true)
    (h2 : (definedNames t).contains s = false)
    (h3 : pyBuiltins.contains s = false)
    (h4 : (importedNames t).contains s = false) :
    undefMsg s line ∈ check_undefined_variables t := by
  rw [check_undefined_eq]
  obtain ⟨n, hn, hpred⟩ := List.any_eq_true.1 h1
  rw [isLoadOf_shape hpred] at hn
  refine List.mem_filterMap.2 ⟨_, hn, ?_⟩
  simp only [undefSel]
  rw [h2, h3, h4]
  rfl

/-- C2 amended, witness: the bare load of q at line 3 is reported. -/
theorem C2_amended_witness : undefMsg "q" 3 ∈ check_undefined_variables exC2w :=
  C2_amended exC2w "q" 3 (by decide) (by decide) (by decide) (by decide)

/-- C3 refutation: x = y + 0 is reported by the redundancy pass (with a
message that misnames the assignment as x = x + 0), while the claim says an
addition whose left operand differs from the target is not reported. -/
theorem C3_counterexample :
    check_redundant_code exC3 = [addZeroMsg "x" 1] ∧
    (check_redundant_code exC3).length = 1 :=
  ⟨by decide, by decide⟩

/-- C3 amended: the redundancy pass is the filterMap of its per-assignment
selector; a single-target name assignment of a same-name reference yields
exactly one self-assignment error, and one of a binary addition with a
literal-zero right operand yields exactly one no-op-addition error whatever
its left operand is. -/
theorem C3_amended :
    (∀ t, check_redundant_code t = (walkModule t).filterMap redundantSel) ∧
    (∀ x cx lx v cv lv la,
      redundantSel (.stmt (.assign [.name x cx lx] (.name v cv lv) la)) =
        if v == x then some (selfAssignMsg x la) else none) ∧
    (∀ x cx lx lft c lc lb la,
      redundantSel (.stmt (.assign [.name x cx lx] (.binOp lft .add (.const c lc) lb) la)) =
        if constEqZero c then some (addZeroMsg x la) else none) :=
  ⟨check_redundant_eq, fun _ _ _ _ _ _ _ => rfl, fun _ _ _ _ _ _ _ _ => rfl⟩

/-- C4: the division pass emits a hard error for every division-class binary
operation whose right operand is a literal equal to zero, and a suggestion
naming the operand for every one whose right operand is a plain name; the two
selectors exhaust the two lists, so a name operand never reaches the errors
and a literal operand never reaches the suggestions. -/
theorem C4_division_pass :
    (∀ t, check_division_by_zero t =
      ((walkModule t).filterMap divErrSel, (walkModule t).filterMap divSuggSel)) ∧
    (∀ lft op c lc line, divErrSel (.expr (.binOp lft op (.const c lc) line)) =
      if isDivOp op && constEqZero c then some (divErrMsg line) else none) ∧
    (∀ lft op id ctx lr line, divSuggSel (.expr (.binOp lft op (.name id ctx lr) line)) =
      if isDivOp op then some (divSuggMsg line id) else none) ∧
    (∀ lft op id ctx lr line, divErrSel (.expr (.binOp lft op (.name id ctx lr) line)) = none) ∧
    (∀ lft op c lc line, divSuggSel (.expr (.binOp lft op (.const c lc) line)) = none) := by
  refine ⟨check_division_eq, ?_, ?_, ?_, ?_⟩
  · intro lft op c lc line
    cases hop : isDivOp op <;> cases hc : constEqZero c <;> simp [divErrSel, hop, hc]
  · intro lft op id ctx lr line
    cases hop : isDivOp op <;> simp [divSuggSel, hop]
  · intro lft op id ctx lr line
    cases hop : isDivOp op <;> simp [divErrSel, hop]
  · intro lft op c lc line
    cases hop : isDivOp op <;> simp [divSuggSel, hop]

/-- C5 refutation: a for-loop over range(10) whose body is a conditional with
a nested append(i) call satisfies the claim's premises (range iterable,
summation condition fails, append at depth), yet the pass emits nothing: the
append check sits on the else-branch of the range test. -/
theorem C5_counterexample :
    isRangeCall (.call (.name "range" .load 1) [.const (.intVal 10) 1] 1) = true ∧
    isSimpleSum [.ifStmt (.const (.boolVal true) 2)
      [.exprStmt (.call (.name "append" .load 3) [.name "i" .load 3] 3) 3] [] 2] = false ∧
    anyAppendCall (walkNode (.stmt exC5For)) = true ∧
    check_inefficient_loops exC5 = [] :=
  ⟨by decide, by decide, by decide, by decide⟩

/-- C5 amended: the loop pass is the filterMap of its per-loop selector, which
suggests the comprehension only on the else-branch of the range test; a
range-iterable loop that fails the pure-summation condition produces no
finding, whatever append calls its body nests. -/
theorem C5_amended :
    (∀ t, check_inefficient_loops t = (walkModule t).filterMap loopSel) ∧
    (∀ target iterExpr body orelse line,
      loopSel (.stmt (.forLoop target iterExpr body orelse line)) =
        if isRangeCall iterExpr then
          if isSimpleSum body then some (sumLoopMsg line) else none
        else if anyAppendCall (walkNode (.stmt (.forLoop target iterExpr body orelse line))) then
          some (comprMsg line)
        else none) ∧
    (∀ target iterExpr body orelse line,
      isRangeCall iterExpr = true → isSimpleSum body = false →
        loopSel (.stmt (.forLoop target iterExpr body orelse line)) = none) := by
  refine ⟨check_loops_eq, fun _ _ _ _ _ => rfl, ?_⟩
  intro target iterExpr body orelse line h1 h2
  simp [loopSel, h1, h2]

/-- C5 amended, witness: the counterexample loop itself is mapped to no
finding by the selector. -/
theorem C5_amended_witness : loopSel (.stmt exC5For) = none :=
  C5_amended.2.2 (.name "i" .store 1)
    (.call (.name "range" .load 1) [.const (.intVal 10) 1] 1)
    [.ifStmt (.const (.boolVal true) 2)
      [.exprStmt (.call (.name "append" .load 3) [.name "i" .load 3] 3) 3] [] 2]
    [] 1 (by decide) (by decide)

/-- C6 refutation: in a function whose first valued return is the name x and
whose second is the literal 42, the scan does not skip the non-qualifying
name return: it stops there and infers Any, and the pass suggests -> Any,
while the claim demands int from the later qualifying return. -/
theorem C6_counterexample :
    firstValuedRet (walkNode (.stmt exC6Fn)) = some (.name "x" .load 2) ∧
    inferReturnType (walkNode (.stmt exC6Fn)) = "Any" ∧
    suggest_type_hints exC6 = [retHintMsg 1 "f" "Any"] :=
  ⟨rfl, rfl, rfl⟩

/-- C6 amended: the inferred label is decided solely by the first
Return-with-value in breadth-first walk order, qualifying or not: scalar
literals label int/float/str (booleans count as integers), list displays
label list, and every other value form, like a name reference, yields Any, as
does the absence of any valued return; non-qualifying earlier returns are not
skipped. -/
theorem C6_amended :
    (∀ nodes, inferReturnType nodes =
      match firstValuedRet nodes with
      | none => "Any"
      | some v => retLabel v) ∧
    (∀ n l, retLabel (.const (.intVal n) l) = "int") ∧
    (∀ b l, retLabel (.const (.boolVal b) l) = "int") ∧
    (∀ q l, retLabel (.const (.floatVal q) l) = "float") ∧
    (∀ s l, retLabel (.const (.strVal s) l) = "str") ∧
    (∀ l, retLabel (.const .noneVal l) = "Any") ∧
    (∀ es l, retLabel (.listLit es l) = "list") ∧
    (∀ id c l, retLabel (.name id c l) = "Any") :=
  ⟨inferReturnType_eq, fun _ _ => rfl, fun _ _ => rfl, fun _ _ => rfl, fun _ _ => rfl,
   fun _ => rfl, fun _ _ => rfl, fun _ _ _ => rfl⟩

/-- C7 refutation: import a.b records the name a, not the last segment b: a
subsequent load of b is reported undefined. -/
theorem C7_counterexample :
    importedNames exC7 = ["a"] ∧
    check_undefined_variables exC7 = [undefMsg "b" 2] :=
  ⟨by decide, by decide⟩

/-- C7 amended: a plain unaliased import of a dotted path records the first
path segment among the imported names, so the undefined-variable selector
never fires on a load of that first segment, and the pass's errors are
exactly the selector's filterMap. -/
theorem C7_amended (t : List PyStmt) (m : String)
    (h : (walkModule t).any (hasPlainImportOf m) = true) :
    (importedNames t).contains (firstSegment m) = true ∧
    (∀ line, undefSel (definedNames t) (importedNames t)
      (.expr (.name (firstSegment m) .load line)) = none) ∧
    check_undefined_variables t =
      (walkModule t).filterMap (undefSel (definedNames t) (importedNames t)) := by
  obtain ⟨n, hn, hpred⟩ := List.any_eq_true.1 h
  obtain ⟨names, line0, hshape, a, ha, horig, hasn⟩ := hasPlainImportOf_shape hpred
  have hmem : firstSegment m ∈ importedNames t := by
    rw [importedNames_eq]
    refine List.mem_flatMap.2 ⟨n, hn, ?_⟩
    rw [hshape]
    simp only [importedOf]
    exact List.mem_map.2 ⟨a, ha, by simp [hasn, horig]⟩
  have hcont : (importedNames t).contains (firstSegment m) = true := List.elem_iff.2 hmem
  refine ⟨hcont, ?_, check_undefined_eq t⟩
  intro line
  simp only [undefSel]
  rw [hcont]
  simp

/-- C7 amended, witness: import os.path records os, and the selector does not
fire on a load of os. -/
theorem C7_amended_witness :
    (importedNames exC7w).contains (firstSegment "os.path") = true ∧
    undefSel (definedNames exC7w) (importedNames exC7w)
      (.expr (.name (firstSegment "os.path") .load 5)) = none :=
  ⟨(C7_amended exC7w "os.path" (by decide)).1,
   (C7_amended exC7w "os.path" (by decide)).2.1 5⟩

/-- C8: a name holding an entry in the collected defined-name dictionary (a
Store target or parameter) that is never loaded and is not a function name
yields exactly one finding; a loaded name or function name yields none; the
reported errors are exactly the findings rendered in order. -/
theorem C8_unused_reporting (t : List PyStmt) (s : String) :
    ((unusedCollect t).definedD.any (fun p => p.1 == s) = true →
      (unusedCollect t).used.contains s = false →
      (unusedCollect t).funcs.contains s = false →
      (unusedFindings t).countP (fun p => p.1 == s) = 1) ∧
    (((unusedCollect t).used.contains s = true ∨ (unusedCollect t).funcs.contains s = true) →
      (unusedFindings t).countP (fun p => p.1 == s) = 0) ∧
    check_unused_variables t = (unusedFindings t).map (fun p => unusedMsg p.1 p.2) := by
  refine ⟨?_, ?_, check_unused_eq t⟩
  · intro h1 h2 h3
    show (((unusedCollect t).definedD.filter
      (fun p => !(unusedCollect t).used.contains p.1 &&
        !(unusedCollect t).funcs.contains p.1)).countP (fun p => p.1 == s)) = 1
    exact (countP_filter_key_pos
        (fun k => !(unusedCollect t).used.contains k && !(unusedCollect t).funcs.contains k)
        s (by
          show (!(unusedCollect t).used.contains s &&
            !(unusedCollect t).funcs.contains s) = true
          rw [h2, h3]
          rfl) (unusedCollect t).definedD).trans
      (countP_eq_one_of_nodup_any s _ (unusedCollect_nodup t) h1)
  · intro h
    show (((unusedCollect t).definedD.filter
      (fun p => !(unusedCollect t).used.contains p.1 &&
        !(unusedCollect t).funcs.contains p.1)).countP (fun p => p.1 == s)) = 0
    refine countP_filter_key_neg
      (fun k => !(unusedCollect t).used.contains k && !(unusedCollect t).funcs.contains k)
      s ?_ (unusedCollect t).definedD
    show (!(unusedCollect t).used.contains s && !(unusedCollect t).funcs.contains s) = false
    rcases h with h | h
    · rw [h]
      rfl
    · rw [h]
      simp

/-- C8 witness: u = 42 with u never read yields exactly one finding for u;
v stored then loaded yields none for v. -/
theorem C8_unused_witness :
    (unusedFindings exC8a).countP (fun p => p.1 == "u") = 1 ∧
    (unusedFindings exC8b).countP (fun p => p.1 == "v") = 0 :=
  ⟨(C8_unused_reporting exC8a "u").1 (by decide) (by decide) (by decide),
   (C8_unused_reporting exC8b "v").2.1 (Or.inl (by decide))⟩

/-- C9: analyze is a pure function of the parse outcome of the source text;
two runs on freshly constructed instances over the same text return identical
errors, optimizations, and suggestions. -/
theorem C9_deterministic (p1 p2 : ParseOutcome) (d1 d2 : CodeDebugger)
    (hp : p1 = p2) (h1 : d1 = newDebugger) (h2 : d2 = newDebugger) :
    (analyze p1 d1).2 = (analyze p2 d2).2 := by
  subst hp
  subst h1
  subst h2
  rfl

/-- C9 witness: two fresh runs on the same (empty-module) outcome agree. -/
theorem C9_deterministic_witness :
    (analyze (ParseOutcome.success []) newDebugger).2 =
      (analyze (ParseOutcome.success []) newDebugger).2 :=
  C9_deterministic (ParseOutcome.success []) (ParseOutcome.success [])
    newDebugger newDebugger rfl rfl rfl

/-- C10: when the first valued return the scan stops at carries a boolean
literal, the inferred label is int, because the host language's booleans are
integers; with no declared return annotation the emitted suggestion leads
with exactly that int hint. -/
theorem C10_bool_return_int (fname : String) (args : List PyParam) (body : List PyStmt)
    (hra : Bool) (line : Nat)
    (h : isBoolRet (firstValuedRet
      (walkNode (.stmt (.functionDef fname args body hra line)))) = true) :
    inferReturnType (walkNode (.stmt (.functionDef fname args body hra line))) = "int" ∧
    (hra = false →
      (hintsOfFn fname args body hra line).head? = some (retHintMsg line fname "int")) := by
  have hmain : inferReturnType
      (walkNode (.stmt (.functionDef fname args body hra line))) = "int" := by
    rw [inferReturnType_eq]
    cases hfv : firstValuedRet (walkNode (.stmt (.functionDef fname args body hra line))) with
    | none => rw [hfv] at h; simp [isBoolRet] at h
    | some v =>
      cases v with
      | const c lc =>
        cases c with
        | boolVal b => simp [retLabel]
        | intVal n => rw [hfv] at h; simp [isBoolRet] at h
        | floatVal q => rw [hfv] at h; simp [isBoolRet] at h
        | strVal s => rw [hfv] at h; simp [isBoolRet] at h
        | noneVal => rw [hfv] at h; simp [isBoolRet] at h
      | name a b c => rw [hfv] at h; simp [isBoolRet] at h
      | binOp a b c d => rw [hfv] at h; simp [isBoolRet] at h
      | call a b c => rw [hfv] at h; simp [isBoolRet] at h
      | listLit a b => rw [hfv] at h; simp [isBoolRet] at h
      | attr a b c d => rw [hfv] at h; simp [isBoolRet] at h
  refine ⟨hmain, ?_⟩
  intro hf
  subst hf
  simp [hintsOfFn, hmain]

/-- C10 witness: a function returning the boolean literal True is labelled
int. -/
theorem C10_bool_return_int_witness :
    inferReturnType (walkNode (.stmt
      (.functionDef "g" [] [.ret (some (.const (.boolVal true) 2)) 2] false 1))) = "int" :=
  (C10_bool_return_int "g" [] [.ret (some (.const (.boolVal true) 2)) 2] false 1
    (by decide)).1
